import Mathlib

/-!
A shallow embedding of the `pepspy` tensor-network library (files
`src/pepspy/node.py`, `src/pepspy/network.py`, `src/pepspy/peps.py`) and
proofs about it.

Tensors are modelled as a shape (list of axis dimensions) together with a
flat, row-major list of integer entries.  The numpy operations used by the
source (`np.tensordot`, `np.eye`, `tensor.shape`, `np.asarray([scalar])`)
are modelled by executable Lean functions implementing their documented
Einstein-summation semantics, including numpy's validation behaviour
(shape-mismatch errors, index errors for out-of-range axes, and the
"repeated axis in transpose" failure for duplicated contraction axes).

Python dynamic-typing and truthiness details that the source relies on are
modelled explicitly: optional arguments are `Option`s, `if x:` on an
optional integer is false for both `None` and `0`, an empty tuple/list/str
is falsy, tuple indexing accepts negative positions, and `isinstance`
checks on axis entries are modelled with a small dynamic-value type
`PyVal`.  Exceptions are modelled with the `Err` type (`ValueError` with
its message, and `IndexError`).
-/

deriving instance DecidableEq for Except

/-- A Python exception, as raised by the source: `ValueError` carries its
message, `IndexError` is tuple/array indexing out of range. -/
inductive Err where
  | valueError (msg : String)
  | indexError
deriving DecidableEq, Repr

/-- A dynamically typed Python value appearing as an entry of the `ax`
argument of `contract` / `contract_self`: an integer, or a list of
integers (the per-operand axis lists of the pairwise form). -/
inductive PyVal where
  | pyint (i : Int)
  | pylist (l : List Int)
deriving DecidableEq, Repr

/-- A dense numpy array: shape plus flat row-major data. -/
structure Tensor where
  shape : List Nat
  data : List Int
deriving DecidableEq, Repr

/-- All multi-indices of a given shape, in row-major order. -/
def allIndices : List Nat → List (List Nat)
  | [] => [[]]
  | d :: ds => (List.range d).flatMap (fun i => (allIndices ds).map (fun t => i :: t))

/-- Build a tensor of the given shape from an entry function. -/
def tabulate (shape : List Nat) (f : List Nat → Int) : Tensor :=
  ⟨shape, (allIndices shape).map f⟩

/-- Entry of a tensor at a multi-index (0 outside the tensor). -/
def Tensor.get (t : Tensor) (idx : List Nat) : Int :=
  t.data.getD (List.indexOf idx (allIndices t.shape)) 0

/-- `np.eye(d)`: the d×d identity matrix. -/
def eye (d : Nat) : Tensor :=
  tabulate [d, d] (fun idx => if idx.headD 0 = idx.getD 1 0 then 1 else 0)

/-- Python truthiness of an optional integer: `None` and `0` are falsy. -/
def pyTruthy : Option Nat → Bool
  | none => false
  | some n => n != 0

/-- Python truthiness of an optional string: `None` and `""` are falsy. -/
def pyTruthyStr : Option String → Bool
  | none => false
  | some s => s != ""

/-- Python tuple indexing `shape[i]` with negative-index wrap-around;
`IndexError` outside `[-len, len)`. -/
def pyTupleGet (l : List Nat) (i : Int) : Except Err Nat :=
  if 0 ≤ i ∧ i < l.length then .ok (l.getD i.toNat 0)
  else if -(l.length : Int) ≤ i ∧ i < 0 then .ok (l.getD (i + l.length).toNat 0)
  else .error .indexError

/-- Normalization of a (possibly negative) numpy axis against a rank, as
`np.tensordot` performs it (`if axes_a[k] < 0: axes_a[k] += nda`). -/
def normAx (rank : Nat) (a : Int) : Int :=
  if a < 0 then a + rank else a

/-- The axes of `range rank` not contracted (numpy's `notin`), ascending. -/
def freeAxes (rank : Nat) (axes : List Nat) : List Nat :=
  (List.range rank).filter (fun p => !(axes.contains p))

/-- Rebuild a full multi-index of a tensor of rank `rank` from the values
`free` at non-contracted positions (in ascending position order) and `kk`
at the contracted positions `axes` (in the order the axes were listed). -/
def fullIndex (rank : Nat) (axes : List Nat) (free kk : List Nat) : List Nat :=
  (List.range rank).map (fun p =>
    if axes.contains p then kk.getD (List.indexOf p axes) 0
    else free.getD (freeAxes p axes).length 0)

/-- The mathematical core of `np.tensordot` on valid, normalized axes:
the result's axes are `a`'s non-contracted axes in original order followed
by `b`'s, and each entry is the sum over the paired contracted axes of the
product of operand entries. -/
def tensordotT (a b : Tensor) (axA axB : List Nat) : Tensor :=
  let fa := freeAxes a.shape.length axA
  let fb := freeAxes b.shape.length axB
  let sA := fa.map (fun p => a.shape.getD p 0)
  let sB := fb.map (fun p => b.shape.getD p 0)
  let kshape := axA.map (fun p => a.shape.getD p 0)
  tabulate (sA ++ sB) (fun idx =>
    ((allIndices kshape).map (fun kk =>
      a.get (fullIndex a.shape.length axA (idx.take fa.length) kk) *
      b.get (fullIndex b.shape.length axB (idx.drop fa.length) kk))).sum)

/-- A python `ax` entry as the axis list numpy makes of it: an integer
becomes a one-element list. -/
def toAxList : PyVal → List Int
  | .pyint i => [i]
  | .pylist l => l

/-- `np.tensordot(a, b, axes)` with numpy's validation: the two axis lists
must have equal length and pairwise equal dimensions (else the
"shape-mismatch for sum" `ValueError`), every axis must be in range after
negative-axis normalization (else `IndexError` from shape indexing), and
the per-operand axis lists must not repeat an axis (else the transpose
inside `tensordot` raises "repeated axis in transpose"). -/
def tensordot (a b : Tensor) (ax : List PyVal) : Except Err Tensor :=
  match ax with
  | [xa, xb] =>
    let axesA := (toAxList xa).map (normAx a.shape.length)
    let axesB := (toAxList xb).map (normAx b.shape.length)
    if axesA.length ≠ axesB.length then .error (.valueError "shape-mismatch for sum")
    else if !(axesA.all (fun x => decide (0 ≤ x) && decide (x < a.shape.length)) &&
              axesB.all (fun x => decide (0 ≤ x) && decide (x < b.shape.length))) then
      .error .indexError
    else if !((axesA.zip axesB).all
        (fun p => a.shape.getD p.1.toNat 0 == b.shape.getD p.2.toNat 0)) then
      .error (.valueError "shape-mismatch for sum")
    else if axesA.Nodup ∧ axesB.Nodup then
      .ok (tensordotT a b (axesA.map Int.toNat) (axesB.map Int.toNat))
    else .error (.valueError "repeated axis in transpose")
  | _ => .error (.valueError "tensordot axes must be a pair")

/-- The connectivity mapping of a node: peer name to the pair of axis
indices contracted with that peer (a Python dict, modelled as an
association list). -/
abbrev ConnMap : Type := List (String × Nat × Nat)

/-- A node of the tensor network (`class Node` of `node.py`). -/
structure Node where
  name : String
  tensor : Tensor
  shape : List Nat
  spin_dim : Option Nat
  bond_dim : Option Nat
  connected_nodes : ConnMap
deriving DecidableEq, Repr

instance : Inhabited Node := ⟨⟨"", ⟨[], []⟩, [], none, none, ([] : ConnMap)⟩⟩

/-- `Node.assign_shape(shape, spin_dim, bond_dim)`: stores the shape and
derives `spin_dim`/`bond_dim`.  Rank < 2: `spin_dim = shape[0]` (an
`IndexError` on an empty shape) and `bond_dim` is taken verbatim from the
argument.  Rank ≥ 2: a falsy (`None`/`0`) `spin_dim` argument is replaced
by `shape[0]`, a falsy `bond_dim` by `shape[1]`. -/
def Node.assign_shape (n : Node) (shape : List Nat) (spin_dim bond_dim : Option Nat) :
    Except Err Node :=
  match shape with
  | [] => .error .indexError
  | [d] => .ok { n with shape := [d], spin_dim := some d, bond_dim := bond_dim }
  | d0 :: d1 :: rest => .ok { n with
      shape := d0 :: d1 :: rest,
      spin_dim := if pyTruthy spin_dim then spin_dim else some d0,
      bond_dim := if pyTruthy bond_dim then bond_dim else some d1 }

/-- The constructor's `if (shape and tensor.shape != shape)` test: true
iff the supplied shape argument is truthy (a non-empty tuple) and differs
from the tensor's actual shape. -/
def shapeCheckFails (shape : Option (List Nat)) (tensor : Tensor) : Bool :=
  match shape with
  | none => false
  | some s => !s.isEmpty && tensor.shape != s

/-- `Node.__init__(name, tensor, shape, spin_dim, bond_dim,
connected_nodes)`: rejects a truthy (non-empty) supplied `shape` that
differs from `tensor.shape`, takes the supplied `connected_nodes` if
truthy (else a fresh empty dict), and derives the dimension metadata via
`assign_shape(tensor.shape, spin_dim, bond_dim)`. -/
def mkNode (name : String) (tensor : Tensor) (shape : Option (List Nat))
    (spin_dim bond_dim : Option Nat) (connected_nodes : Option ConnMap) :
    Except Err Node :=
  if shapeCheckFails shape tensor then
    .error (.valueError "Specified shape does not match tensor")
  else
    Node.assign_shape
      { name := name, tensor := tensor, shape := [], spin_dim := none,
        bond_dim := none,
        connected_nodes := (connected_nodes.getD ([] : ConnMap)) }
      tensor.shape spin_dim bond_dim

/-- `Node.update_tensor(tensor)`: replace the tensor and refresh the
metadata from its shape, passing the node's current `spin_dim`/`bond_dim`
as the hints. -/
def Node.update_tensor (n : Node) (tensor : Tensor) : Except Err Node :=
  Node.assign_shape { n with tensor := tensor } tensor.shape n.spin_dim n.bond_dim

/-- Resolution of the `new_name` argument (`if not new_name: new_name =
self.name`): `None` and the empty string fall back to the node's name. -/
def resolveName (n : Node) (new_name : Option String) : String :=
  if pyTruthyStr new_name then new_name.getD "" else n.name

/-- `Node.contract_self(ax, new_name)`: requires exactly two axis entries,
both integers, in range of the node's `shape` tuple (Python indexing, so
negative positions wrap) and of equal dimension; then contracts the
node's tensor with the identity matrix of that dimension over those two
axes via `np.tensordot`, wrapping a rank-0 result into a one-element
rank-1 tensor before building the result node. -/
def Node.contract_self (n : Node) (ax : List PyVal) (new_name : Option String) :
    Except Err Node :=
  if ax.length ≠ 2 then .error (.valueError "Axis must be of dimension 2")
  else
    match ax with
    | [.pyint idx0, .pyint idx1] => do
      let d0 ← pyTupleGet n.shape idx0
      let d1 ← pyTupleGet n.shape idx1
      if d0 ≠ d1 then .error (.valueError "Indices to contract must have the same dimension")
      else do
        let nm := resolveName n new_name
        let contracted ← tensordot n.tensor (eye d0) [.pylist [idx0, idx1], .pylist [0, 1]]
        if contracted.shape = [] then
          mkNode nm ⟨[1], contracted.data⟩ none none none (some n.connected_nodes)
        else
          mkNode nm contracted none none none (some n.connected_nodes)
    | _ => .error (.valueError "Indices must be integers")

/-- The pairwise branch of `Node.contract`: `np.tensordot` of the two
tensors over `ax`, wrapped in a new node carrying the resolved name and
the receiver's `connected_nodes`. -/
def Node.contract_pair (n m : Node) (ax : List PyVal) (nm : String) :
    Except Err Node := do
  let contracted ← tensordot n.tensor m.tensor ax
  mkNode nm contracted none none none (some n.connected_nodes)

/-- `Node.contract(ax, other_node, new_name)`: resolves the name, and if
`other_node` is absent or is the receiver itself delegates to
`contract_self`, otherwise contracts the two tensors pairwise. -/
def Node.contract (n : Node) (ax : List PyVal) (other_node : Option Node)
    (new_name : Option String) : Except Err Node :=
  let nm := resolveName n new_name
  match other_node with
  | none => n.contract_self ax (some nm)
  | some m => if m = n then n.contract_self ax (some nm) else n.contract_pair m ax nm

/-- `class Network` of `network.py`: the source class only stores the
supplied list of tensors verbatim (its `MPS`/`PEPS` subclasses have no
body in the source). -/
structure Network where
  tensors : List Tensor
deriving DecidableEq, Repr

/-- A bond of the network graph: axis `axi` of node id `i` is contracted
with axis `axj` of node id `j`. -/
structure Bond where
  i : Nat
  j : Nat
  axi : Nat
  axj : Nat
deriving DecidableEq, Repr

/-- A network of nodes with stable integer ids plus its bond graph. -/
structure NetworkG where
  nodes : List (Nat × Node)
  bonds : List Bond
deriving DecidableEq, Repr

/-- The node with a given id. -/
def lookupNode (nodes : List (Nat × Node)) (i : Nat) : Option Node :=
  (nodes.find? (fun p => p.1 == i)).map (fun p => p.2)

/-- Modelled from the spec: network construction (§4.2 `Construct`) is
absent from the source (`Network.__init__` only stores the tensor list and
the `MPS`/`PEPS` bodies are missing); per the spec it wraps each supplied
tensor in a Node, auto-naming by position. -/
def wrapNodes : Nat → List Tensor → Except Err (List (Nat × Node))
  | _, [] => .ok []
  | k, t :: ts => do
    let n ← mkNode (toString k) t none none none none
    let rest ← wrapNodes (k + 1) ts
    .ok ((k, n) :: rest)

/-- Bond-dimension consistency of one declared bond (§4.2). -/
def bondConsistent (nodes : List (Nat × Node)) (b : Bond) : Bool :=
  match lookupNode nodes b.i, lookupNode nodes b.j with
  | some ni, some nj => ni.shape.getD b.axi 0 == nj.shape.getD b.axj 0
  | _, _ => false

/-- Modelled from the spec: §4.2 `Construct(tensors, topology)` — wraps
each tensor in a Node and fails with `DimensionConflict` if two nodes
sharing a declared bond disagree on that axis's size. -/
def mkNetworkG (tensors : List Tensor) (bonds : List Bond) : Except Err NetworkG := do
  let nodes ← wrapNodes 0 tensors
  if bonds.all (bondConsistent nodes) then .ok ⟨nodes, bonds⟩
  else .error (.valueError "DimensionConflict")

/-- Modelled from the spec: one reduction step of §4.2 `Contract` —
selects the first bond, merges its two endpoint nodes with `Node.contract`
over all axes bonded between them, removes the two nodes and their mutual
bonds, inserts the merged node (keeping the receiver's id), and rewires
every remaining bond to the merged node with axis indices updated per the
axis-order rule of §4.1 (receiver's unpaired axes in original order, then
the operand's). -/
def contractStep (net : NetworkG) : Except Err NetworkG :=
  match net.bonds with
  | [] => .ok net
  | b :: _ =>
    let i := b.i
    let j := b.j
    let mutual' := fun (c : Bond) => (c.i == i && c.j == j) || (c.i == j && c.j == i)
    let shared := net.bonds.filter mutual'
    let rest := net.bonds.filter (fun c => !(mutual' c))
    let axesI := shared.map (fun c => if c.i == i then c.axi else c.axj)
    let axesJ := shared.map (fun c => if c.i == i then c.axj else c.axi)
    match lookupNode net.nodes i, lookupNode net.nodes j with
    | some ni, some nj => do
      let merged ← ni.contract_pair nj
        [.pylist (axesI.map Int.ofNat), .pylist (axesJ.map Int.ofNat)] ni.name
      let nfreeI := (freeAxes ni.shape.length axesI).length
      let remap := fun (k a : Nat) =>
        if k == i then (freeAxes a axesI).length
        else nfreeI + (freeAxes a axesJ).length
      let newBonds := rest.map (fun c =>
        ⟨if c.i == i || c.i == j then i else c.i,
         if c.j == i || c.j == j then i else c.j,
         if c.i == i || c.i == j then remap c.i c.axi else c.axi,
         if c.j == i || c.j == j then remap c.j c.axj else c.axj⟩)
      let newNodes := (net.nodes.filter (fun p => p.1 != j)).map
        (fun p => if p.1 == i then (i, merged) else p)
      .ok ⟨newNodes, newBonds⟩
    | _, _ => .error (.valueError "DisconnectedNetwork")

/-- Modelled from the spec: the reduction loop of §4.2 `Contract` —
repeat `contractStep` until no bonds remain; each step removes at least
one bond, so the initial bond count bounds the number of steps. -/
def contractLoop : Nat → NetworkG → Except Err NetworkG
  | 0, net => .ok net
  | fuel + 1, net =>
    match net.bonds with
    | [] => .ok net
    | _ => do contractLoop fuel (← contractStep net)

/-- Modelled from the spec: §4.2 `Contract()` — full-network reduction. -/
def NetworkG.contractAll (net : NetworkG) : Except Err NetworkG :=
  contractLoop net.bonds.length net

/-- First tensor of the three-site MPS of Scenario 4: axes are
(physical, left bond, right bond), each of dimension 2. -/
def mpsT1 : Tensor := ⟨[2, 2, 2], [1, 2, 3, 4, 5, 6, 7, 8]⟩

/-- Second tensor of the three-site MPS of Scenario 4. -/
def mpsT2 : Tensor := ⟨[2, 2, 2], [8, 7, 6, 5, 4, 3, 2, 1]⟩

/-- Third tensor of the three-site MPS of Scenario 4. -/
def mpsT3 : Tensor := ⟨[2, 2, 2], [1, 0, 2, 1, 3, 1, 0, 2]⟩

/-- The chain bonds of the three-site MPS: each right-bond axis (2) is
bonded to the following site's left-bond axis (1), closing the chain, so
that only the three physical axes (axis 0 of each site) stay open. -/
def mpsBonds : List Bond := [⟨0, 1, 2, 1⟩, ⟨1, 2, 2, 1⟩, ⟨2, 0, 2, 1⟩]

/-- The fully reduced three-site MPS network of Scenario 4. -/
def mpsReduced : Except Err NetworkG :=
  mkNetworkG [mpsT1, mpsT2, mpsT3] mpsBonds >>= NetworkG.contractAll

/-! ## Helper lemmas about the tensor embedding -/

theorem length_of_mem_allIndices {s x : List Nat} (h : x ∈ allIndices s) :
    x.length = s.length := by
  induction s generalizing x with
  | nil =>
    simp only [allIndices, List.mem_singleton] at h
    simp [h]
  | cons d ds ih =>
    simp only [allIndices, List.mem_flatMap, List.mem_map, List.mem_range] at h
    obtain ⟨i, _, t, ht, rfl⟩ := h
    simp [ih ht]

theorem mem_allIndices_cons {d : Nat} {ds : List Nat} {x : List Nat} :
    x ∈ allIndices (d :: ds) ↔ ∃ i, i < d ∧ ∃ t, t ∈ allIndices ds ∧ x = i :: t := by
  simp only [allIndices, List.mem_flatMap, List.mem_map, List.mem_range]
  constructor
  · rintro ⟨i, hi, t, ht, rfl⟩
    exact ⟨i, hi, t, ht, rfl⟩
  · rintro ⟨i, hi, t, ht, rfl⟩
    exact ⟨i, hi, t, ht, rfl⟩

theorem append_mem_allIndices {s1 s2 ia ib : List Nat} (ha : ia ∈ allIndices s1)
    (hb : ib ∈ allIndices s2) : ia ++ ib ∈ allIndices (s1 ++ s2) := by
  induction s1 generalizing ia with
  | nil =>
    simp only [allIndices, List.mem_singleton] at ha
    simpa [ha] using hb
  | cons d ds ih =>
    rw [mem_allIndices_cons] at ha
    obtain ⟨i, hi, t, ht, rfl⟩ := ha
    rw [List.cons_append, mem_allIndices_cons]
    exact ⟨i, hi, t ++ ib, ih ht, rfl⟩

theorem indexOf_lt_length_of_mem {α : Type} [BEq α] [LawfulBEq α] {a : α} {l : List α}
    (h : a ∈ l) : l.indexOf a < l.length := by
  induction l with
  | nil => simp at h
  | cons b l ih =>
    rw [List.indexOf_cons]
    rcases List.mem_cons.mp h with rfl | hmem
    · simp
    · by_cases hb : b == a
      · simp [hb]
      · simp only [hb, cond_false]
        exact Nat.succ_lt_succ (ih hmem)

theorem getElem_indexOf_of_mem {α : Type} [BEq α] [LawfulBEq α] {a : α} {l : List α}
    (h : a ∈ l) (hlt : l.indexOf a < l.length) : l[l.indexOf a] = a := by
  induction l with
  | nil => simp at h
  | cons b l ih =>
    by_cases hb : b == a
    · simp only [List.indexOf_cons, hb, cond_true]
      simpa using (eq_of_beq hb)
    · have hm : a ∈ l := by
        rcases List.mem_cons.mp h with rfl | hmem
        · simp at hb
        · exact hmem
      simp only [List.indexOf_cons, hb, cond_false]
      simp only [List.getElem_cons_succ]
      exact ih hm (indexOf_lt_length_of_mem hm)

theorem get_tabulate (shape : List Nat) (f : List Nat → Int) (idx : List Nat)
    (h : idx ∈ allIndices shape) : (tabulate shape f).get idx = f idx := by
  unfold tabulate Tensor.get
  have hlt : List.indexOf idx (allIndices shape) < (allIndices shape).length :=
    indexOf_lt_length_of_mem h
  rw [List.getD_eq_getElem _ _ (by simpa using hlt), List.getElem_map,
    getElem_indexOf_of_mem h hlt]

theorem sum_map_flatMap {α β : Type} (l : List α) (f : α → List β) (g : β → Int) :
    ((l.flatMap f).map g).sum = (l.map (fun a => ((f a).map g).sum)).sum := by
  induction l with
  | nil => simp
  | cons a l ih => simp [List.flatMap_cons, ih]

theorem sum_range_delta (d i : Nat) (hi : i < d) (f : Nat → Int) :
    ((List.range d).map (fun j => if i = j then f j else 0)).sum = f i := by
  induction d with
  | zero => omega
  | succ d ih =>
    rw [List.range_succ, List.map_append, List.sum_append]
    rcases Nat.lt_or_ge i d with h | h
    · rw [ih h]
      simp [Nat.ne_of_lt h]
    · have : i = d := by omega
      subst this
      have hz : ((List.range i).map (fun j => if i = j then f j else 0)).sum = 0 := by
        apply List.sum_eq_zero
        intro x hx
        simp only [List.mem_map, List.mem_range] at hx
        obtain ⟨j, hj, rfl⟩ := hx
        simp [Nat.ne_of_gt hj]
      simp [hz]

/-! ## Helper lemmas about `assign_shape` and `mkNode` -/

theorem assign_shape_ok_iff {n : Node} {shape : List Nat} {sd bd : Option Nat} :
    (∃ m, Node.assign_shape n shape sd bd = .ok m) ↔ shape ≠ [] := by
  match shape with
  | [] => simp [Node.assign_shape]
  | [d] => simp [Node.assign_shape]
  | d0 :: d1 :: rest => simp [Node.assign_shape]

theorem assign_shape_fields {n m : Node} {shape : List Nat} {sd bd : Option Nat}
    (h : Node.assign_shape n shape sd bd = .ok m) :
    m.shape = shape ∧ m.tensor = n.tensor ∧ m.name = n.name ∧
      m.connected_nodes = n.connected_nodes := by
  match shape with
  | [] => simp [Node.assign_shape] at h
  | [d] =>
    simp only [Node.assign_shape, Except.ok.injEq] at h
    subst h
    exact ⟨rfl, rfl, rfl, rfl⟩
  | d0 :: d1 :: rest =>
    simp only [Node.assign_shape, Except.ok.injEq] at h
    subst h
    exact ⟨rfl, rfl, rfl, rfl⟩

theorem mkNode_fields {name : String} {t : Tensor} {shape : Option (List Nat)}
    {sd bd : Option Nat} {cn : Option ConnMap} {n : Node}
    (h : mkNode name t shape sd bd cn = .ok n) :
    n.shape = t.shape ∧ n.tensor = t ∧ n.name = name ∧
      n.connected_nodes = cn.getD ([] : ConnMap) := by
  unfold mkNode at h
  split at h
  · exact absurd h (by simp)
  · have hf := assign_shape_fields h
    simpa using hf

theorem exceptBind_ok {ε α β : Type} {x : Except ε α} {f : α → Except ε β} {r : β} :
    (x >>= f) = .ok r ↔ ∃ a, x = .ok a ∧ f a = .ok r := by
  cases x with
  | error e => simp [Bind.bind, Except.bind]
  | ok a => simp [Bind.bind, Except.bind]

theorem assign_shape_error {n : Node} {shape : List Nat} {sd bd : Option Nat} {e : Err}
    (h : Node.assign_shape n shape sd bd = .error e) : e = .indexError ∧ shape = [] := by
  match shape with
  | [] =>
    simp only [Node.assign_shape, Except.error.injEq] at h
    exact ⟨h.symm, rfl⟩
  | [d] => simp [Node.assign_shape] at h
  | d0 :: d1 :: rest => simp [Node.assign_shape] at h

theorem update_tensor_shape {n : Node} {t : Tensor} {r : Node}
    (h : n.update_tensor t = .ok r) : r.shape = r.tensor.shape := by
  unfold Node.update_tensor at h
  have hf := assign_shape_fields h
  rw [hf.1, hf.2.1]

theorem mkNode_shape_inv {name : String} {t : Tensor} {shape : Option (List Nat)}
    {sd bd : Option Nat} {cn : Option ConnMap} {n : Node}
    (h : mkNode name t shape sd bd cn = .ok n) : n.shape = n.tensor.shape := by
  have hf := mkNode_fields h
  rw [hf.1, hf.2.1]

theorem contract_self_shape {n : Node} {ax : List PyVal} {nm : Option String} {r : Node}
    (h : Node.contract_self n ax nm = .ok r) : r.shape = r.tensor.shape := by
  unfold Node.contract_self at h
  split at h
  · cases h
  · split at h
    · rw [exceptBind_ok] at h
      obtain ⟨d0, _, h⟩ := h
      rw [exceptBind_ok] at h
      obtain ⟨d1, _, h⟩ := h
      split at h
      · cases h
      · rw [exceptBind_ok] at h
        obtain ⟨t, _, h⟩ := h
        split at h
        · exact mkNode_shape_inv h
        · exact mkNode_shape_inv h
    · cases h

theorem contract_pair_shape {n m : Node} {ax : List PyVal} {nm : String} {r : Node}
    (h : Node.contract_pair n m ax nm = .ok r) : r.shape = r.tensor.shape := by
  unfold Node.contract_pair at h
  rw [exceptBind_ok] at h
  obtain ⟨t, _, h⟩ := h
  exact mkNode_shape_inv h

theorem contract_shape {n : Node} {ax : List PyVal} {other : Option Node}
    {nm : Option String} {r : Node} (h : Node.contract n ax other nm = .ok r) :
    r.shape = r.tensor.shape := by
  unfold Node.contract at h
  match other with
  | none => exact contract_self_shape h
  | some m =>
    simp only at h
    split at h
    · exact contract_self_shape h
    · exact contract_pair_shape h

/-- The 2×2 identity node of Scenario 1, as constructed by `mkNode`. -/
def idNode2 : Node := ⟨"A", eye 2, [2, 2], some 2, some 2, ([] : ConnMap)⟩

/-- The partner 2×2 identity node of Scenario 1. -/
def idNode2B : Node := ⟨"B", eye 2, [2, 2], some 2, some 2, ([] : ConnMap)⟩

/-- The 3×3 identity node of Scenario 2. -/
def idNode3 : Node := ⟨"A", eye 3, [3, 3], some 3, some 3, ([] : ConnMap)⟩

/-- C1 (confirmed): the shape invariant — every node produced by the
public interface (construction, `update_tensor`, pairwise `contract`,
`contract_self`) has its `shape` metadata equal to the actual shape of
its `tensor`, whatever optional shape/spin_dim/bond_dim metadata was
supplied. -/
theorem shape_invariant :
    (∀ name t shape sd bd cn n,
      mkNode name t shape sd bd cn = .ok n → n.shape = n.tensor.shape) ∧
    (∀ (m : Node) t n, m.update_tensor t = .ok n → n.shape = n.tensor.shape) ∧
    (∀ (m : Node) ax other nm n,
      m.contract ax other nm = .ok n → n.shape = n.tensor.shape) ∧
    (∀ (m : Node) ax nm n, m.contract_self ax nm = .ok n → n.shape = n.tensor.shape) :=
  ⟨fun _ _ _ _ _ _ _ h => mkNode_shape_inv h,
   fun _ _ _ h => update_tensor_shape h,
   fun _ _ _ _ _ h => contract_shape h,
   fun _ _ _ _ h => contract_self_shape h⟩

/-- Witness for C1: the invariant at a concrete construction. -/
theorem shape_invariant_witness :
    mkNode "A" (eye 2) none none none none = .ok idNode2 ∧
      idNode2.shape = idNode2.tensor.shape :=
  ⟨by decide, shape_invariant.1 "A" (eye 2) none none none none idNode2 (by decide)⟩

/-- C4 (code bug): a complete pairwise contraction — every axis of both
operands summed over — does not wrap the rank-0 result: `contract` hands
the bare scalar to the Node constructor, whose `assign_shape` evaluates
`shape[0]` on the empty shape tuple and raises `IndexError`.
`contract_self`, by contrast, does wrap its rank-0 result as a rank-1
single-element tensor (second conjunct). -/
theorem contract_rank0_not_wrapped :
    Node.contract ⟨"A", ⟨[2], [1, 2]⟩, [2], some 2, none, ([] : ConnMap)⟩
        [.pylist [0], .pylist [0]]
        (some ⟨"B", ⟨[2], [3, 4]⟩, [2], some 2, none, ([] : ConnMap)⟩) none =
      .error .indexError ∧
    Node.contract_self idNode2 [.pyint 0, .pyint 1] none =
      .ok ⟨"A", ⟨[1], [2]⟩, [1], some 1, none, ([] : ConnMap)⟩ := by
  constructor
  · decide
  · decide

/-- C9 counterexample: a supplied `shape` of `()` (empty tuple) that
disagrees with the tensor's actual shape `(2,)` is NOT rejected — the
empty tuple is falsy, so `if (shape and tensor.shape != shape)` skips the
check and construction succeeds. -/
theorem mkNode_empty_shape_not_rejected :
    mkNode "A" ⟨[2], [1, 2]⟩ (some []) none none none =
      .ok ⟨"A", ⟨[2], [1, 2]⟩, [2], some 2, none, ([] : ConnMap)⟩ := by decide

/-- C9 (amended): for a tensor of rank ≥ 1, construction fails with the
`ShapeMismatch` `ValueError` iff the supplied shape is non-empty and
differs from the tensor's actual shape; when every supplied shape is
either empty (falsy, hence ignored) or agrees with the tensor — in
particular when no shape is supplied — construction succeeds. -/
theorem mkNode_shape_check (name : String) (t : Tensor) (ht : t.shape ≠ [])
    (shape : Option (List Nat)) (sd bd : Option Nat) (cn : Option ConnMap) :
    (mkNode name t shape sd bd cn =
        .error (.valueError "Specified shape does not match tensor")
      ↔ ∃ s, shape = some s ∧ s ≠ [] ∧ s ≠ t.shape) ∧
    ((∀ s, shape = some s → s = [] ∨ s = t.shape) →
      ∃ n, mkNode name t shape sd bd cn = .ok n) := by
  constructor
  · constructor
    · intro h
      unfold mkNode at h
      split at h
      next hchk =>
        match shape with
        | none => simp [shapeCheckFails] at hchk
        | some s =>
          simp only [shapeCheckFails, Bool.and_eq_true, bne_iff_ne,
            Bool.not_eq_true', List.isEmpty_eq_false] at hchk
          exact ⟨s, rfl, hchk.1, fun hs => hchk.2 (hs ▸ rfl)⟩
      next =>
        exact absurd ((assign_shape_error h).2) ht
    · rintro ⟨s, rfl, hne, hdiff⟩
      unfold mkNode
      have hchk : shapeCheckFails (some s) t = true := by
        simp only [shapeCheckFails, Bool.and_eq_true, bne_iff_ne,
          Bool.not_eq_true', List.isEmpty_eq_false]
        exact ⟨hne, fun hs => hdiff hs.symm⟩
      rw [if_pos hchk]
  · intro hcons
    have hchk : shapeCheckFails shape t = false := by
      match shape with
      | none => rfl
      | some s =>
        rcases hcons s rfl with rfl | rfl
        · rfl
        · simp [shapeCheckFails]
    unfold mkNode
    rw [hchk]
    simpa using assign_shape_ok_iff.mpr ht

/-- Witness for C9 at Scenario 3: supplied shape (2,4) against a (2,3)
tensor, which fails with the `ShapeMismatch` `ValueError`. -/
theorem mkNode_shape_check_witness :
    ((mkNode "A" ⟨[2, 3], [1, 2, 3, 4, 5, 6]⟩ (some [2, 4]) none none none =
        .error (.valueError "Specified shape does not match tensor")
      ↔ ∃ s, (some [2, 4] : Option (List Nat)) = some s ∧ s ≠ [] ∧ s ≠ [2, 3]) ∧
    ((∀ s, (some [2, 4] : Option (List Nat)) = some s → s = [] ∨ s = [2, 3]) →
      ∃ n, mkNode "A" ⟨[2, 3], [1, 2, 3, 4, 5, 6]⟩ (some [2, 4]) none none none =
        .ok n)) ∧
    mkNode "A" ⟨[2, 3], [1, 2, 3, 4, 5, 6]⟩ (some [2, 4]) none none none =
      .error (.valueError "Specified shape does not match tensor") :=
  ⟨mkNode_shape_check "A" ⟨[2, 3], [1, 2, 3, 4, 5, 6]⟩ (by decide)
      (some [2, 4]) none none none,
   by decide⟩

/-- C5 counterexample: an explicitly supplied `bond_dim` hint of `0` on a
rank-1 node is stored, but `update_tensor` to a rank-2 tensor drops it —
`bond_dim if bond_dim else shape[1]` treats the zero hint as absent and
re-derives `4` — although the new tensor's rank permits a bond
dimension. -/
theorem update_tensor_zero_hint_dropped :
    mkNode "A" ⟨[5], [1, 1, 1, 1, 1]⟩ none none (some 0) none =
      .ok ⟨"A", ⟨[5], [1, 1, 1, 1, 1]⟩, [5], some 5, some 0, ([] : ConnMap)⟩ ∧
    Node.update_tensor ⟨"A", ⟨[5], [1, 1, 1, 1, 1]⟩, [5], some 5, some 0, ([] : ConnMap)⟩
        ⟨[3, 4], [0, 0, 0, 0, 0, 0, 0, 0, 0, 0, 0, 0]⟩ =
      .ok ⟨"A", ⟨[3, 4], [0, 0, 0, 0, 0, 0, 0, 0, 0, 0, 0, 0]⟩, [3, 4],
        some 5, some 4, ([] : ConnMap)⟩ := by
  constructor
  · decide
  · decide

/-- C5 (amended): `update_tensor` replaces the tensor and re-derives
`shape`/`spin_dim`/`bond_dim` from the new tensor's actual shape,
preserving the previously held `spin_dim`/`bond_dim` values where the new
tensor's rank still permits them ONLY when they are truthy (non-`None`
and nonzero): for a rank-1 new tensor `spin_dim` becomes the sole
dimension and `bond_dim` is carried over verbatim; for rank ≥ 2 a truthy
previous value is preserved and a falsy one is re-derived as
`shape[0]`/`shape[1]`; a rank-0 new tensor raises `IndexError`. -/
theorem update_tensor_metadata (n : Node) (t : Tensor) :
    (t.shape = [] → n.update_tensor t = .error .indexError) ∧
    (∀ d, t.shape = [d] →
      n.update_tensor t = .ok { n with
        tensor := t
        shape := [d]
        spin_dim := some d
        bond_dim := n.bond_dim }) ∧
    (∀ d0 d1 rest, t.shape = d0 :: d1 :: rest →
      n.update_tensor t = .ok { n with
        tensor := t
        shape := d0 :: d1 :: rest
        spin_dim := if pyTruthy n.spin_dim then n.spin_dim else some d0
        bond_dim := if pyTruthy n.bond_dim then n.bond_dim else some d1 }) := by
  refine ⟨fun h0 => ?_, fun d h1 => ?_, fun d0 d1 rest h2 => ?_⟩
  · unfold Node.update_tensor
    rw [h0]
    rfl
  · unfold Node.update_tensor
    rw [h1]
    rfl
  · unfold Node.update_tensor
    rw [h2]
    rfl

/-- Witness for C5 (amended): a rank-2 replacement preserving both truthy
hints. -/
theorem update_tensor_metadata_witness :
    ((⟨"A", ⟨[5], [1, 1, 1, 1, 1]⟩, [5], some 5, some 7, ([] : ConnMap)⟩ : Node).tensor.shape =
        [] → False) ∧
    Node.update_tensor ⟨"A", ⟨[5], [1, 1, 1, 1, 1]⟩, [5], some 5, some 7, ([] : ConnMap)⟩
        ⟨[3, 4], [0, 0, 0, 0, 0, 0, 0, 0, 0, 0, 0, 0]⟩ =
      .ok ⟨"A", ⟨[3, 4], [0, 0, 0, 0, 0, 0, 0, 0, 0, 0, 0, 0]⟩, [3, 4],
        some 5, some 7, ([] : ConnMap)⟩ := by
  constructor
  · decide
  · have h := (update_tensor_metadata
      ⟨"A", ⟨[5], [1, 1, 1, 1, 1]⟩, [5], some 5, some 7, ([] : ConnMap)⟩
      ⟨[3, 4], [0, 0, 0, 0, 0, 0, 0, 0, 0, 0, 0, 0]⟩).2.2 3 4 [] (by decide)
    exact h

/-- C7 (confirmed): metadata round trip — constructing a Node with an
explicitly supplied shape equal to the tensor's shape, spin_dim equal to
the first dimension (for rank 1: the sole dimension) and, for rank ≥ 2,
bond_dim equal to the second dimension (for rank 1: any caller-supplied
bond_dim), then reading the attributes back, reproduces exactly the
supplied values. -/
theorem metadata_round_trip (name : String) (t : Tensor) (cn : Option ConnMap) :
    (∀ d bd, t.shape = [d] →
      ∃ n, mkNode name t (some t.shape) (some d) (some bd) cn = .ok n ∧
        n.shape = t.shape ∧ n.spin_dim = some d ∧ n.bond_dim = some bd) ∧
    (∀ d0 d1 rest, t.shape = d0 :: d1 :: rest →
      ∃ n, mkNode name t (some t.shape) (some d0) (some d1) cn = .ok n ∧
        n.shape = t.shape ∧ n.spin_dim = some d0 ∧ n.bond_dim = some d1) := by
  have hchk : shapeCheckFails (some t.shape) t = false := by
    simp [shapeCheckFails]
  constructor
  · intro d bd h1
    unfold mkNode
    rw [hchk]
    simp only [Bool.false_eq_true, if_false, h1]
    unfold Node.assign_shape
    exact ⟨_, rfl, by simp [h1], rfl, rfl⟩
  · intro d0 d1 rest h2
    unfold mkNode
    rw [hchk]
    simp only [Bool.false_eq_true, if_false, h2]
    unfold Node.assign_shape
    by_cases h0 : d0 = 0
    · subst h0
      by_cases h1 : d1 = 0
      · subst h1
        exact ⟨_, rfl, by simp [h2], rfl, rfl⟩
      · refine ⟨_, rfl, by simp [h2], ?_, ?_⟩
        · rfl
        · simp [pyTruthy, h1]
    · by_cases h1 : d1 = 0
      · subst h1
        refine ⟨_, rfl, by simp [h2], ?_, ?_⟩
        · simp [pyTruthy, h0]
        · rfl
      · refine ⟨_, rfl, by simp [h2], ?_, ?_⟩
        · simp [pyTruthy, h0]
        · simp [pyTruthy, h1]

/-- Witness for C7: round trips at a rank-1 tensor (with caller-supplied
bond_dim 9) and at a rank-2 tensor. -/
theorem metadata_round_trip_witness :
    (∃ n, mkNode "A" ⟨[3], [1, 2, 3]⟩ (some [3]) (some 3) (some 9) none = .ok n ∧
      n.shape = [3] ∧ n.spin_dim = some 3 ∧ n.bond_dim = some 9) ∧
    (∃ n, mkNode "B" ⟨[2, 3], [1, 2, 3, 4, 5, 6]⟩ (some [2, 3]) (some 2) (some 3) none =
        .ok n ∧
      n.shape = [2, 3] ∧ n.spin_dim = some 2 ∧ n.bond_dim = some 3) :=
  ⟨(metadata_round_trip "A" ⟨[3], [1, 2, 3]⟩ none).1 3 9 (by decide),
   (metadata_round_trip "B" ⟨[2, 3], [1, 2, 3, 4, 5, 6]⟩ none).2 2 3 [] (by decide)⟩

theorem mkNode_derived_metadata {name : String} {t : Tensor} {cn : Option ConnMap}
    {r : Node} (h : mkNode name t none none none cn = .ok r) :
    r.spin_dim = some (r.tensor.shape.headD 0) ∧
      r.bond_dim = (if 2 ≤ r.tensor.shape.length then some (r.tensor.shape.getD 1 0)
        else none) ∧ 1 ≤ r.tensor.shape.length := by
  have hten : r.tensor = t := (mkNode_fields h).2.1
  unfold mkNode at h
  rw [if_neg (by simp [shapeCheckFails])] at h
  match hs : t.shape with
  | [] =>
    rw [hs] at h
    simp [Node.assign_shape] at h
  | [d] =>
    rw [hs] at h
    simp only [Node.assign_shape, Except.ok.injEq] at h
    subst h
    simp [hten, hs]
  | d0 :: d1 :: rest =>
    rw [hs] at h
    simp only [Node.assign_shape, Except.ok.injEq] at h
    subst h
    simp [hten, hs, pyTruthy]

/-- C10 (confirmed, implicit claim): a successful pairwise contraction
derives the result's `spin_dim`/`bond_dim` afresh from the contracted
tensor's shape — `spin_dim` is its first dimension, `bond_dim` its second
when the result has rank ≥ 2 and `None` for a rank-1 result — without
propagating either operand's hints. -/
theorem contract_derives_metadata {n m : Node} {ax : List PyVal} {nm : Option String}
    {r : Node} (hne : m ≠ n) (h : n.contract ax (some m) nm = .ok r) :
    r.spin_dim = some (r.tensor.shape.headD 0) ∧
      r.bond_dim = (if 2 ≤ r.tensor.shape.length then some (r.tensor.shape.getD 1 0)
        else none) ∧ 1 ≤ r.tensor.shape.length := by
  unfold Node.contract at h
  simp only [if_neg hne] at h
  unfold Node.contract_pair at h
  rw [exceptBind_ok] at h
  obtain ⟨t, _, h⟩ := h
  exact mkNode_derived_metadata h

/-- Witness for C10 at Scenario 1: the contracted identity matrices give
spin_dim 2 and bond_dim 2, derived from the result shape (2,2). -/
theorem contract_derives_metadata_witness :
    (⟨"A", ⟨[2, 2], [1, 0, 0, 1]⟩, [2, 2], some 2, some 2, ([] : ConnMap)⟩ : Node).spin_dim =
        some ((⟨"A", ⟨[2, 2], [1, 0, 0, 1]⟩, [2, 2], some 2, some 2,
          ([] : ConnMap)⟩ : Node).tensor.shape.headD 0) ∧
      (⟨"A", ⟨[2, 2], [1, 0, 0, 1]⟩, [2, 2], some 2, some 2, ([] : ConnMap)⟩ : Node).bond_dim =
        (if 2 ≤ (⟨"A", ⟨[2, 2], [1, 0, 0, 1]⟩, [2, 2], some 2, some 2,
            ([] : ConnMap)⟩ : Node).tensor.shape.length then
          some ((⟨"A", ⟨[2, 2], [1, 0, 0, 1]⟩, [2, 2], some 2, some 2,
            ([] : ConnMap)⟩ : Node).tensor.shape.getD 1 0)
        else none) ∧
      1 ≤ (⟨"A", ⟨[2, 2], [1, 0, 0, 1]⟩, [2, 2], some 2, some 2,
        ([] : ConnMap)⟩ : Node).tensor.shape.length :=
  @contract_derives_metadata idNode2 idNode2B [.pylist [0], .pylist [0]] none
    ⟨"A", ⟨[2, 2], [1, 0, 0, 1]⟩, [2, 2], some 2, some 2, ([] : ConnMap)⟩
    (by decide) (by decide)

theorem allIndices_singleton (d : Nat) :
    allIndices [d] = (List.range d).map (fun j => [j]) := by
  simp only [allIndices]
  exact Eq.symm (List.map_eq_flatMap (fun j => [j]) (List.range d))

theorem allIndices_pair (d : Nat) :
    allIndices [d, d] =
      (List.range d).flatMap (fun i => (List.range d).map (fun j => [i, j])) := by
  show (List.range d).flatMap (fun i => (allIndices [d]).map (fun t => i :: t)) = _
  rw [allIndices_singleton]
  simp [List.map_map, Function.comp_def]

theorem pair_mem_allIndices {d i j : Nat} (hi : i < d) (hj : j < d) :
    [i, j] ∈ allIndices [d, d] := by
  rw [mem_allIndices_cons]
  refine ⟨i, hi, [j], ?_, rfl⟩
  rw [mem_allIndices_cons]
  exact ⟨j, hj, [], by simp [allIndices], rfl⟩

theorem eye_get {d i j : Nat} (hi : i < d) (hj : j < d) :
    (eye d).get [i, j] = if i = j then 1 else 0 := by
  unfold eye
  rw [get_tabulate _ _ _ (pair_mem_allIndices hi hj)]
  rfl

/-- The trace identity: summing `t[i,j] * eye[i,j]` over all index pairs
equals the sum of the diagonal entries. -/
theorem trace_sum (a : Tensor) (d : Nat) :
    ((allIndices [d, d]).map (fun kk =>
      a.get (fullIndex 2 [0, 1] [] kk) * (eye d).get (fullIndex 2 [0, 1] [] kk))).sum
    = ((List.range d).map (fun i => a.get [i, i])).sum := by
  rw [allIndices_pair, sum_map_flatMap]
  apply congrArg List.sum
  apply List.map_congr_left
  intro i hi
  rw [List.map_map]
  have hcong : ∀ j ∈ List.range d,
      ((fun kk => a.get (fullIndex 2 [0, 1] [] kk) *
        (eye d).get (fullIndex 2 [0, 1] [] kk)) ∘ fun j => [i, j]) j
      = (fun j => if i = j then a.get [i, j] else 0) j := by
    intro j hj
    simp only [Function.comp_apply]
    show a.get [i, j] * (eye d).get [i, j] = _
    rw [eye_get (List.mem_range.mp hi) (List.mem_range.mp hj)]
    by_cases h : i = j
    · simp [h]
    · simp [h]
  rw [List.map_congr_left hcong, sum_range_delta d i (List.mem_range.mp hi)]

/-- Evaluation of the `np.tensordot(tensor, eye(d), axes=((0,1),(0,1)))`
call made by `contract_self` on a (d,d) tensor: all checks pass and the
result is the rank-0 tensor holding the full double sum. -/
theorem tensordot_self_eval (a : Tensor) (d : Nat) (ha : a.shape = [d, d]) :
    tensordot a (eye d) [.pylist [0, 1], .pylist [0, 1]] =
      .ok ⟨[], [((allIndices [d, d]).map (fun kk =>
        a.get (fullIndex 2 [0, 1] [] kk) *
        (eye d).get (fullIndex 2 [0, 1] [] kk))).sum]⟩ := by
  obtain ⟨sh, data⟩ := a
  simp only [Tensor.mk.injEq] at ha ⊢
  subst ha
  simp only [tensordot, toAxList, normAx]
  norm_num [eye, tabulate]
  rfl

theorem ok_bind {ε α β : Type} (a : α) (f : α → Except ε β) :
    (Except.ok a >>= f) = f a := rfl

/-- C3 (confirmed): the trace law — self-contracting a rank-2 node of
shape (d, d) over axes (0, 1) returns a rank-1, single-element tensor
whose value is the sum of the tensor's diagonal. -/
theorem contract_self_trace (n : Node) (d : Nat) (hs : n.shape = [d, d])
    (ht : n.tensor.shape = [d, d]) :
    n.contract_self [.pyint 0, .pyint 1] none =
      .ok ⟨n.name, ⟨[1], [((List.range d).map (fun i => n.tensor.get [i, i])).sum]⟩,
        [1], some 1, none, n.connected_nodes⟩ := by
  have hptg0 : pyTupleGet n.shape 0 = .ok d := by
    rw [hs]
    simp [pyTupleGet]
  have hptg1 : pyTupleGet n.shape 1 = .ok d := by
    rw [hs]
    simp [pyTupleGet]
  have htd := tensordot_self_eval n.tensor d ht
  unfold Node.contract_self
  rw [if_neg (by decide)]
  simp only [hptg0, ok_bind, hptg1]
  rw [if_neg (fun h => h rfl)]
  simp only [htd, ok_bind, resolveName, pyTruthyStr]
  rw [if_pos trivial]
  simp only [Bool.false_eq_true, if_false, mkNode, shapeCheckFails, Node.assign_shape]
  rw [trace_sum n.tensor d]
  rfl

/-- Witness for C3 at Scenario 2: the 3×3 identity node self-contracted
over (0, 1) yields the rank-1 single-element tensor [3] — the trace. -/
theorem contract_self_trace_witness :
    Node.contract_self idNode3 [.pyint 0, .pyint 1] none =
      .ok ⟨"A", ⟨[1], [((List.range 3).map (fun i => (eye 3).get [i, i])).sum]⟩,
        [1], some 1, none, ([] : ConnMap)⟩ ∧
    ((List.range 3).map (fun i => (eye 3).get [i, i])).sum = 3 :=
  ⟨contract_self_trace idNode3 3 rfl rfl, by decide⟩

theorem map_normAx_ofNat (r : Nat) (l : List Nat) :
    (l.map Int.ofNat).map (normAx r) = l.map Int.ofNat := by
  rw [List.map_map]
  apply List.map_congr_left
  intro x _
  simp [normAx, Function.comp]

theorem map_toNat_ofNat (l : List Nat) : (l.map Int.ofNat).map Int.toNat = l := by
  rw [List.map_map]
  have h : (Int.toNat ∘ Int.ofNat) = id := by
    funext x
    simp
  rw [h, List.map_id]

/-- On valid non-negative axis lists of matched lengths and equal paired
dimensions, `np.tensordot` passes all its checks and computes the
generalized contraction. -/
theorem tensordot_ok (a b : Tensor) (la lb : List Nat)
    (hlen : la.length = lb.length)
    (hrA : ∀ x ∈ la, x < a.shape.length) (hrB : ∀ x ∈ lb, x < b.shape.length)
    (hdims : ∀ p ∈ la.zip lb, a.shape.getD p.1 0 = b.shape.getD p.2 0)
    (hndA : la.Nodup) (hndB : lb.Nodup) :
    tensordot a b [.pylist (la.map Int.ofNat), .pylist (lb.map Int.ofNat)] =
      .ok (tensordotT a b la lb) := by
  unfold tensordot
  simp only [toAxList, map_normAx_ofNat]
  rw [if_neg (by simp [hlen])]
  have hallA : (la.map Int.ofNat).all
      (fun x => decide (0 ≤ x) && decide (x < (a.shape.length : Int))) = true := by
    rw [List.all_eq_true]
    intro x hx
    simp only [List.mem_map] at hx
    obtain ⟨y, hy, rfl⟩ := hx
    have := hrA y hy
    simp only [Bool.and_eq_true, decide_eq_true_eq, Int.ofNat_eq_natCast]
    omega
  have hallB : (lb.map Int.ofNat).all
      (fun x => decide (0 ≤ x) && decide (x < (b.shape.length : Int))) = true := by
    rw [List.all_eq_true]
    intro x hx
    simp only [List.mem_map] at hx
    obtain ⟨y, hy, rfl⟩ := hx
    have := hrB y hy
    simp only [Bool.and_eq_true, decide_eq_true_eq, Int.ofNat_eq_natCast]
    omega
  rw [if_neg (by rw [hallA, hallB]; decide)]
  have hzip : ((la.map Int.ofNat).zip (lb.map Int.ofNat)).all
      (fun p => a.shape.getD p.1.toNat 0 == b.shape.getD p.2.toNat 0) = true := by
    rw [List.all_eq_true]
    rintro ⟨x, y⟩ hp
    rw [List.zip_map] at hp
    simp only [List.mem_map] at hp
    obtain ⟨⟨u, v⟩, huv, heq⟩ := hp
    cases heq
    have h := hdims (u, v) huv
    simp only [List.getD_eq_getElem?_getD] at h
    simp [h]
  rw [if_neg (by rw [hzip]; decide)]
  have hnda : (la.map Int.ofNat).Nodup := hndA.map (fun x y h => Int.ofNat.inj h)
  have hndb : (lb.map Int.ofNat).Nodup := hndB.map (fun x y h => Int.ofNat.inj h)
  rw [if_pos ⟨hnda, hndb⟩, map_toNat_ofNat, map_toNat_ofNat]

theorem tensordotT_shape (a b : Tensor) (la lb : List Nat) :
    (tensordotT a b la lb).shape =
      (freeAxes a.shape.length la).map (fun p => a.shape.getD p 0) ++
      (freeAxes b.shape.length lb).map (fun p => b.shape.getD p 0) := rfl

theorem tensordotT_get (a b : Tensor) (la lb : List Nat) {ia ib : List Nat}
    (hia : ia ∈ allIndices ((freeAxes a.shape.length la).map (fun p => a.shape.getD p 0)))
    (hib : ib ∈ allIndices ((freeAxes b.shape.length lb).map (fun p => b.shape.getD p 0))) :
    (tensordotT a b la lb).get (ia ++ ib) =
      ((allIndices (la.map (fun p => a.shape.getD p 0))).map (fun kk =>
        a.get (fullIndex a.shape.length la ia kk) *
        b.get (fullIndex b.shape.length lb ib kk))).sum := by
  have hmem := append_mem_allIndices hia hib
  have hlen_ia : ia.length = (freeAxes a.shape.length la).length := by
    rw [length_of_mem_allIndices hia, List.length_map]
  unfold tensordotT
  rw [get_tabulate _ _ _ hmem, ← hlen_ia, List.take_left, List.drop_left]

/-- C2 counterexample: contracting two distinct rank-1 nodes over their
(matched, equal-dimension) only axes does not return a Node at all — the
rank-0 result crashes the Node constructor with `IndexError`, so the
claim's universally quantified success fails here. -/
theorem contract_full_pair_crashes :
    Node.contract ⟨"A", ⟨[2], [5, 6]⟩, [2], some 2, none, ([] : ConnMap)⟩
      [.pylist [0], .pylist [0]]
      (some ⟨"B", ⟨[2], [7, 8]⟩, [2], some 2, none, ([] : ConnMap)⟩) none =
      .error .indexError := by decide

/-- C2 (amended): pairwise contraction of two distinct nodes over matched
axis lists of equal paired dimensions, leaving at least one unpaired axis,
with a non-empty (or absent) `new_name`, returns a new Node whose tensor
is the Einstein summation over the paired axes, whose axis order is the
receiver's unpaired axes in original order followed by the other node's
unpaired axes in original order, whose name is `new_name` if given (else
the receiver's name), and whose `connected_nodes` is the receiver's
mapping. -/
theorem contract_pair_spec (n m : Node) (la lb : List Nat) (nm : Option String)
    (hne : m ≠ n)
    (hlen : la.length = lb.length)
    (hrA : ∀ x ∈ la, x < n.tensor.shape.length)
    (hrB : ∀ x ∈ lb, x < m.tensor.shape.length)
    (hdims : ∀ p ∈ la.zip lb, n.tensor.shape.getD p.1 0 = m.tensor.shape.getD p.2 0)
    (hndA : la.Nodup) (hndB : lb.Nodup)
    (hfree : freeAxes n.tensor.shape.length la ≠ [] ∨
      freeAxes m.tensor.shape.length lb ≠ [])
    (hnm : ∀ s, nm = some s → s ≠ "") :
    ∃ r, n.contract [.pylist (la.map Int.ofNat), .pylist (lb.map Int.ofNat)]
        (some m) nm = .ok r ∧
      r.name = nm.getD n.name ∧
      r.connected_nodes = n.connected_nodes ∧
      r.tensor = tensordotT n.tensor m.tensor la lb ∧
      r.tensor.shape =
        (freeAxes n.tensor.shape.length la).map (fun p => n.tensor.shape.getD p 0) ++
        (freeAxes m.tensor.shape.length lb).map (fun p => m.tensor.shape.getD p 0) ∧
      ∀ ia ∈ allIndices
          ((freeAxes n.tensor.shape.length la).map (fun p => n.tensor.shape.getD p 0)),
        ∀ ib ∈ allIndices
          ((freeAxes m.tensor.shape.length lb).map (fun p => m.tensor.shape.getD p 0)),
          r.tensor.get (ia ++ ib) =
            ((allIndices (la.map (fun p => n.tensor.shape.getD p 0))).map (fun kk =>
              n.tensor.get (fullIndex n.tensor.shape.length la ia kk) *
              m.tensor.get (fullIndex m.tensor.shape.length lb ib kk))).sum := by
  have htd := tensordot_ok n.tensor m.tensor la lb hlen hrA hrB hdims hndA hndB
  have hshape_ne : (tensordotT n.tensor m.tensor la lb).shape ≠ [] := by
    rw [tensordotT_shape]
    intro hcontra
    rw [List.append_eq_nil, List.map_eq_nil_iff, List.map_eq_nil_iff] at hcontra
    rcases hfree with h | h
    · exact h hcontra.1
    · exact h hcontra.2
  have hname : resolveName n nm = nm.getD n.name := by
    match nm with
    | none => rfl
    | some s =>
      have hs := hnm s rfl
      simp [resolveName, pyTruthyStr, hs]
  unfold Node.contract
  simp only
  rw [if_neg hne]
  unfold Node.contract_pair
  rw [htd, ok_bind]
  have hex : ∃ r, mkNode (resolveName n nm) (tensordotT n.tensor m.tensor la lb)
      none none none (some n.connected_nodes) = .ok r := by
    unfold mkNode
    rw [if_neg (by simp [shapeCheckFails])]
    exact assign_shape_ok_iff.mpr hshape_ne
  obtain ⟨r, hr⟩ := hex
  have hf := mkNode_fields hr
  refine ⟨r, hr, ?_, ?_, hf.2.1, ?_, ?_⟩
  · rw [hf.2.2.1, hname]
  · rw [hf.2.2.2]
    rfl
  · rw [hf.2.1]
    exact tensordotT_shape n.tensor m.tensor la lb
  · intro ia hia ib hib
    rw [hf.2.1]
    exact tensordotT_get n.tensor m.tensor la lb hia hib

/-- Witness for C2 at Scenario 1: contracting the two 2×2 identity nodes
over axes ([0],[0]) yields the 2×2 identity matrix. -/
theorem contract_pair_spec_witness :
    (∃ r, Node.contract idNode2 [.pylist [0], .pylist [0]]
        (some idNode2B) none = .ok r ∧
      r.name = "A" ∧
      r.connected_nodes = ([] : ConnMap) ∧
      r.tensor = tensordotT (eye 2) (eye 2) [0] [0] ∧
      r.tensor.shape = [2] ++ [2] ∧
      ∀ ia ∈ allIndices [2], ∀ ib ∈ allIndices [2],
        r.tensor.get (ia ++ ib) =
          ((allIndices [2]).map (fun kk =>
            (eye 2).get (fullIndex 2 [0] ia kk) *
            (eye 2).get (fullIndex 2 [0] ib kk))).sum) ∧
    Node.contract idNode2 [.pylist [0], .pylist [0]] (some idNode2B) none =
      .ok ⟨"A", ⟨[2, 2], [1, 0, 0, 1]⟩, [2, 2], some 2, some 2, ([] : ConnMap)⟩ :=
  ⟨contract_pair_spec idNode2 idNode2B [0] [0] none (by decide) rfl (by decide)
    (by decide) (by decide) (by decide) (by decide) (Or.inl (by decide))
    (fun s h => nomatch h),
   by decide⟩

/-- Python's normalized tuple index: negative positions wrap by the
length. -/
def pyNormIdx (len : Nat) (i : Int) : Nat := (normAx len i).toNat

theorem err_bind {ε α β : Type} (e : ε) (f : α → Except ε β) :
    (Except.error e >>= f) = (.error e : Except ε β) := rfl

theorem pyTupleGet_ok {l : List Nat} {i : Int}
    (h : -(l.length : Int) ≤ i ∧ i < l.length) :
    pyTupleGet l i = .ok (l.getD (pyNormIdx l.length i) 0) := by
  unfold pyTupleGet pyNormIdx normAx
  by_cases hneg : i < 0
  · rw [if_neg (by omega), if_pos (by omega), if_pos hneg]
  · rw [if_pos (by omega), if_neg hneg]

theorem pyTupleGet_error {l : List Nat} {i : Int}
    (h : i < -(l.length : Int) ∨ (l.length : Int) ≤ i) :
    pyTupleGet l i = .error .indexError := by
  unfold pyTupleGet
  rw [if_neg (by omega), if_neg (by omega)]

theorem tensordot_selfcall (a : Tensor) (d : Nat) (i j : Int)
    (hiR : -(a.shape.length : Int) ≤ i ∧ i < a.shape.length)
    (hjR : -(a.shape.length : Int) ≤ j ∧ j < a.shape.length)
    (hda : a.shape.getD (pyNormIdx a.shape.length i) 0 = d)
    (hdb : a.shape.getD (pyNormIdx a.shape.length j) 0 = d) :
    tensordot a (eye d) [.pylist [i, j], .pylist [0, 1]] =
      (if pyNormIdx a.shape.length i = pyNormIdx a.shape.length j then
        .error (.valueError "repeated axis in transpose")
      else .ok (tensordotT a (eye d)
        [pyNormIdx a.shape.length i, pyNormIdx a.shape.length j] [0, 1])) := by
  unfold tensordot
  simp only [toAxList, List.map_cons, List.map_nil]
  have hni : 0 ≤ normAx a.shape.length i ∧ normAx a.shape.length i < a.shape.length := by
    unfold normAx
    by_cases hneg : i < 0
    · rw [if_pos hneg]
      omega
    · rw [if_neg hneg]
      omega
  have hnj : 0 ≤ normAx a.shape.length j ∧ normAx a.shape.length j < a.shape.length := by
    unfold normAx
    by_cases hneg : j < 0
    · rw [if_pos hneg]
      omega
    · rw [if_neg hneg]
      omega
  rw [if_neg (by simp)]
  have hA : ([normAx a.shape.length i, normAx a.shape.length j].all
      (fun x => decide (0 ≤ x) && decide (x < (a.shape.length : Int)))) = true := by
    simp only [List.all_cons, List.all_nil, Bool.and_true, Bool.and_eq_true,
      decide_eq_true_eq]
    exact ⟨⟨hni.1, hni.2⟩, hnj.1, hnj.2⟩
  have hB : (([(0 : Int), 1].map (normAx (eye d).shape.length)).all
      (fun x => decide (0 ≤ x) && decide (x < ((eye d).shape.length : Int)))) = true := by
    show (([(0 : Int), 1].map (normAx 2)).all
      (fun x => decide (0 ≤ x) && decide (x < (2 : Int)))) = true
    decide
  rw [if_neg (by
    simp only [List.map_cons, List.map_nil] at hB
    rw [hA, hB]
    decide)]
  have hdims_all : (([normAx a.shape.length i, normAx a.shape.length j].zip
      [normAx (eye d).shape.length 0, normAx (eye d).shape.length 1]).all
      (fun p => a.shape.getD p.1.toNat 0 == (eye d).shape.getD p.2.toNat 0)) = true := by
    show (([normAx a.shape.length i, normAx a.shape.length j].zip
      [normAx 2 0, normAx 2 1]).all
      (fun p => a.shape.getD p.1.toNat 0 == (eye d).shape.getD p.2.toNat 0)) = true
    simp only [List.zip_cons_cons, List.zip_nil_right, List.all_cons, List.all_nil,
      Bool.and_true, Bool.and_eq_true]
    constructor
    · show (a.shape.getD (normAx a.shape.length i).toNat 0 ==
        (eye d).shape.getD (normAx 2 0).toNat 0) = true
      have h2 : (eye d).shape.getD (normAx 2 0).toNat 0 = d := rfl
      rw [h2]
      exact beq_iff_eq.mpr hda
    · show (a.shape.getD (normAx a.shape.length j).toNat 0 ==
        (eye d).shape.getD (normAx 2 1).toNat 0) = true
      have h2 : (eye d).shape.getD (normAx 2 1).toNat 0 = d := rfl
      rw [h2]
      exact beq_iff_eq.mpr hdb
  rw [if_neg (by rw [hdims_all]; decide)]
  by_cases hp : pyNormIdx a.shape.length i = pyNormIdx a.shape.length j
  · have hnorm : normAx a.shape.length i = normAx a.shape.length j := by
      unfold pyNormIdx at hp
      omega
    rw [if_neg (by
      intro hcon
      have := hcon.1
      simp [List.nodup_cons, hnorm] at this)]
    rw [if_pos hp]
  · have hnorm : normAx a.shape.length i ≠ normAx a.shape.length j := by
      unfold pyNormIdx at hp
      omega
    rw [if_pos ⟨by simp [List.nodup_cons, hnorm], by
      show ([(0 : Int), 1].map (normAx 2)).Nodup
      decide⟩]
    rw [if_neg hp]
    rfl

theorem mkNode_ok_of_shape_ne {name : String} {t : Tensor} {cn : Option ConnMap}
    (h : t.shape ≠ []) : ∃ r, mkNode name t none none none cn = .ok r := by
  unfold mkNode
  rw [if_neg (by simp [shapeCheckFails])]
  exact assign_shape_ok_iff.mpr h

theorem contract_self_intpair (n : Node) (i j : Int) (nm : Option String) :
    n.contract_self [.pyint i, .pyint j] nm =
      (pyTupleGet n.shape i >>= fun d0 =>
       pyTupleGet n.shape j >>= fun d1 =>
       if d0 ≠ d1 then
         .error (.valueError "Indices to contract must have the same dimension")
       else
         (tensordot n.tensor (eye d0) [.pylist [i, j], .pylist [0, 1]] >>=
           fun contracted =>
         if contracted.shape = [] then
           mkNode (resolveName n nm) ⟨[1], contracted.data⟩ none none none
             (some n.connected_nodes)
         else
           mkNode (resolveName n nm) contracted none none none
             (some n.connected_nodes))) := by
  unfold Node.contract_self
  rw [if_neg (by simp)]

/-- C8 (amended): classification of `contract_self`. It fails with the
`InvalidAxisCount` errors when given other than exactly two axis entries
("Axis must be of dimension 2"), when an entry is not an integer
("Indices must be integers"), or when an integer entry is not a valid
(possibly negative) Python tuple position (`IndexError`); it fails with
`AxisMismatch` when the two named axes have unequal dimensions; given two
valid positions of equal dimension it succeeds exactly when the two
positions are distinct after negative-index normalization — coinciding
positions hit numpy's "repeated axis in transpose" failure. -/
theorem contract_self_classification (n : Node) (hinv : n.shape = n.tensor.shape)
    (nm : Option String) :
    (∀ ax : List PyVal, ax.length ≠ 2 →
      n.contract_self ax nm = .error (.valueError "Axis must be of dimension 2")) ∧
    (∀ x y : PyVal, ((∀ k : Int, x ≠ .pyint k) ∨ (∀ k : Int, y ≠ .pyint k)) →
      n.contract_self [x, y] nm = .error (.valueError "Indices must be integers")) ∧
    (∀ i j : Int, (i < -(n.shape.length : Int) ∨ (n.shape.length : Int) ≤ i) →
      n.contract_self [.pyint i, .pyint j] nm = .error .indexError) ∧
    (∀ i j : Int, (-(n.shape.length : Int) ≤ i ∧ i < n.shape.length) →
      (j < -(n.shape.length : Int) ∨ (n.shape.length : Int) ≤ j) →
      n.contract_self [.pyint i, .pyint j] nm = .error .indexError) ∧
    (∀ i j : Int, (-(n.shape.length : Int) ≤ i ∧ i < n.shape.length) →
      (-(n.shape.length : Int) ≤ j ∧ j < n.shape.length) →
      n.shape.getD (pyNormIdx n.shape.length i) 0 ≠
        n.shape.getD (pyNormIdx n.shape.length j) 0 →
      n.contract_self [.pyint i, .pyint j] nm =
        .error (.valueError "Indices to contract must have the same dimension")) ∧
    (∀ i j : Int, (-(n.shape.length : Int) ≤ i ∧ i < n.shape.length) →
      (-(n.shape.length : Int) ≤ j ∧ j < n.shape.length) →
      n.shape.getD (pyNormIdx n.shape.length i) 0 =
        n.shape.getD (pyNormIdx n.shape.length j) 0 →
      pyNormIdx n.shape.length i = pyNormIdx n.shape.length j →
      n.contract_self [.pyint i, .pyint j] nm =
        .error (.valueError "repeated axis in transpose")) ∧
    (∀ i j : Int, (-(n.shape.length : Int) ≤ i ∧ i < n.shape.length) →
      (-(n.shape.length : Int) ≤ j ∧ j < n.shape.length) →
      n.shape.getD (pyNormIdx n.shape.length i) 0 =
        n.shape.getD (pyNormIdx n.shape.length j) 0 →
      pyNormIdx n.shape.length i ≠ pyNormIdx n.shape.length j →
      ∃ r, n.contract_self [.pyint i, .pyint j] nm = .ok r) := by
  have hlen : n.shape.length = n.tensor.shape.length := by rw [hinv]
  refine ⟨?_, ?_, ?_, ?_, ?_, ?_, ?_⟩
  · intro ax hax
    unfold Node.contract_self
    rw [if_pos hax]
  · intro x y hxy
    unfold Node.contract_self
    rw [if_neg (by simp)]
    match x, y with
    | .pyint a, .pyint b =>
      rcases hxy with h | h
      · exact absurd rfl (h a)
      · exact absurd rfl (h b)
    | .pyint a, .pylist l => rfl
    | .pylist l, .pyint b => rfl
    | .pylist l, .pylist l' => rfl
  · intro i j hi
    rw [contract_self_intpair, pyTupleGet_error hi, err_bind]
  · intro i j hi hj
    rw [contract_self_intpair, pyTupleGet_ok hi, ok_bind, pyTupleGet_error hj,
      err_bind]
  · intro i j hi hj hne
    rw [contract_self_intpair, pyTupleGet_ok hi, ok_bind, pyTupleGet_ok hj,
      ok_bind, if_pos hne]
  · intro i j hi hj hde hpe
    rw [contract_self_intpair, pyTupleGet_ok hi, ok_bind, pyTupleGet_ok hj,
      ok_bind, if_neg (fun hc => hc hde)]
    have htd := tensordot_selfcall n.tensor (n.shape.getD (pyNormIdx n.shape.length i) 0)
      i j (by rw [← hinv]; exact hi) (by rw [← hinv]; exact hj)
      (by rw [← hinv]) (by rw [← hinv]; exact hde.symm)
    rw [← hinv] at htd
    rw [htd, if_pos hpe, err_bind]
  · intro i j hi hj hde hpe
    rw [contract_self_intpair, pyTupleGet_ok hi, ok_bind, pyTupleGet_ok hj,
      ok_bind, if_neg (fun hc => hc hde)]
    have htd := tensordot_selfcall n.tensor (n.shape.getD (pyNormIdx n.shape.length i) 0)
      i j (by rw [← hinv]; exact hi) (by rw [← hinv]; exact hj)
      (by rw [← hinv]) (by rw [← hinv]; exact hde.symm)
    rw [← hinv] at htd
    rw [htd, if_neg hpe, ok_bind]
    by_cases hsh : (tensordotT n.tensor
        (eye (n.shape.getD (pyNormIdx n.shape.length i) 0))
        [pyNormIdx n.shape.length i, pyNormIdx n.shape.length j] [0, 1]).shape = []
    · rw [if_pos hsh]
      exact mkNode_ok_of_shape_ne (by simp)
    · rw [if_neg hsh]
      exact mkNode_ok_of_shape_ne hsh

/-- C8 counterexample: `ax=(0,0)` names two valid integer axis positions
of (trivially) equal dimension, yet self-contraction fails — numpy's
transpose rejects the repeated axis — contradicting the claim's "succeeds
exactly when given two valid integer axis positions of equal
dimension". -/
theorem contract_self_repeated_axis_fails :
    Node.contract_self idNode2 [.pyint 0, .pyint 0] none =
      .error (.valueError "repeated axis in transpose") := by decide

/-- Witness for C8: a successful self-contraction with a negative axis,
an out-of-range index error, a wrong-arity error, and an unequal-dimension
error, all at concrete nodes. -/
theorem contract_self_classification_witness :
    (∃ r, Node.contract_self idNode3 [.pyint 0, .pyint (-1)] none = .ok r) ∧
    Node.contract_self idNode2 [.pyint 5, .pyint 0] none = .error .indexError ∧
    Node.contract_self idNode2 [.pyint 0] none =
      .error (.valueError "Axis must be of dimension 2") ∧
    Node.contract_self ⟨"C", ⟨[2, 3], [1, 2, 3, 4, 5, 6]⟩, [2, 3], some 2, some 3,
        ([] : ConnMap)⟩ [.pyint 0, .pyint 1] none =
      .error (.valueError "Indices to contract must have the same dimension") :=
  ⟨(contract_self_classification idNode3 rfl none).2.2.2.2.2.2 0 (-1)
    (by decide) (by decide) (by decide) (by decide),
   (contract_self_classification idNode2 rfl none).2.2.1 5 0 (by decide),
   (contract_self_classification idNode2 rfl none).1 [.pyint 0] (by decide),
   (contract_self_classification
     ⟨"C", ⟨[2, 3], [1, 2, 3, 4, 5, 6]⟩, [2, 3], some 2, some 3, ([] : ConnMap)⟩
     rfl none).2.2.2.2.1 0 1 (by decide) (by decide) (by decide)⟩

/-- C6 (the reduction driver is modelled from the spec, §4.2, since the
source's `Network` stores only the tensor list and its `MPS`/`PEPS`
subclasses have no body): the three-site MPS of Scenario 4 — three 2×2×2
tensors wrapped in Nodes and bonded right-bond axis to left-bond axis in
a closed chain — reduces under repeated pairwise contraction to exactly
one Node whose axes are the three original physical legs (shape (2,2,2),
every bond axis summed away) and whose every entry is the triple Einstein
sum of the three site tensors over the three bond indices. -/
theorem mps_reduction :
    mpsReduced = .ok ⟨[(0, ⟨"0", ⟨[2, 2, 2], [95, 190, 31, 70, 295, 510, 103, 198]⟩,
        [2, 2, 2], some 2, some 2, ([] : ConnMap)⟩)], []⟩ ∧
    ∀ idx ∈ allIndices [2, 2, 2],
      (Tensor.mk [2, 2, 2] [95, 190, 31, 70, 295, 510, 103, 198]).get idx =
        ((allIndices [2, 2, 2]).map (fun b =>
          mpsT1.get [idx.getD 0 0, b.getD 2 0, b.getD 0 0] *
          mpsT2.get [idx.getD 1 0, b.getD 0 0, b.getD 1 0] *
          mpsT3.get [idx.getD 2 0, b.getD 1 0, b.getD 2 0])).sum := by
  constructor
  · decide
  · decide
